import Mathlib

/-!
Verification of the carrot-point path-following controller in
src/lokarriaclass-carrot-final.py (the variant all claims cite).

The embedding is over real arithmetic: machine floats are replaced by
exact reals, trigonometric functions by their Mathlib counterparts, and
the atan2 of the source by the argument of a complex number, whose range
is the half-open interval from -pi (excluded) to pi (included), matching
the atan2 convention of the source language.

Module constants of the source (DISTANCE_THRESHOLD, LOOK_AHEAD_DISTANCE,
LA_THRESHOLD, the two speed caps) are defined below with their source
values. The specification lists the search window, the look-ahead
distance and the distance threshold as configuration parameters, so the
selector and the loop take them as arguments; the source instantiates
them with the constants.
-/

namespace PathBot

open Real

noncomputable section

/-- A 2D waypoint, the dictionary with keys X and Y of the source. -/
structure Point where
  x : ℝ
  y : ℝ

/-- The robot pose attributes kept by the Robot class: x, y and heading. -/
structure Pose where
  x : ℝ
  y : ℝ
  heading : ℝ

/-- A quaternion with components W, X, Y, Z as in the source dictionaries. -/
structure Quat where
  w : ℝ
  x : ℝ
  y : ℝ
  z : ℝ

/-- A 3D vector with components X, Y, Z. -/
structure Vec3 where
  x : ℝ
  y : ℝ
  z : ℝ

/-- The atan2 of the source language: the argument of the complex number
with real part x and imaginary part y, valued in Ioc (-pi) pi. -/
def atan2 (y x : ℝ) : ℝ := Complex.arg ⟨x, y⟩

/-- Source constant DISTANCE_THRESHOLD = 0.5. -/
def DISTANCE_THRESHOLD : ℝ := 0.5

/-- Source constant GOTOPOINT_ANG_SPEED = 3. -/
def GOTOPOINT_ANG_SPEED : ℝ := 3

/-- Source constant GOTOPOINT_LIN_SPEED = 1. -/
def GOTOPOINT_LIN_SPEED : ℝ := 1

/-- Source constant LOOK_AHEAD_DISTANCE = 1.5. -/
def LOOK_AHEAD_DISTANCE : ℝ := 1.5

/-- Source constant LA_THRESHOLD = 400, the search window. -/
def LA_THRESHOLD : ℕ := 400

/-- Source function distanceBetween: the component subtraction labels the
Y difference dx and the X difference dy, exactly as the source does; the
squaring makes the order immaterial. -/
def distanceBetween (p1 p2 : Point) : ℝ :=
  Real.sqrt ((p1.y - p2.y) ^ 2 + (p1.x - p2.x) ^ 2)

/-- Method Robot.distanceTo: Euclidean distance of the robot position to
a point. -/
def distanceTo (pose : Pose) (c : Point) : ℝ :=
  Real.sqrt ((c.x - pose.x) ^ 2 + (c.y - pose.y) ^ 2)

/-- Method Robot.getBearing: angle from the robot to the point, minus the
robot heading, then a single conditional wrap step. -/
def getBearing (pose : Pose) (c : Point) : ℝ :=
  let angle := atan2 (c.y - pose.y) (c.x - pose.x)
  let bearing := angle - pose.heading
  if bearing > π then bearing - 2 * π
  else if bearing < -π then bearing + 2 * π
  else bearing

/-- Method Robot.lookAhead: the point at the given distance in front of
the robot, with the axis convention of the source. -/
def lookAhead (pose : Pose) (distance : ℝ) : Point :=
  ⟨pose.x - distance * Real.sin (pose.heading - π / 2),
   pose.y + distance * Real.cos (pose.heading - π / 2)⟩

/-- Source function coefficient: the angular speed scaling ratio. -/
def coefficient (bearing : ℝ) : ℝ := 1 - Real.exp (-2 * bearing ^ 2)

/-- Method Robot.goToPoint, as the command it issues through setSpeed:
an angular speed by the sign of the bearing, and the constant linear
speed. -/
def goToPointCmd (pose : Pose) (c : Point) : ℝ × ℝ :=
  (if getBearing pose c > 0 then coefficient (getBearing pose c) * GOTOPOINT_ANG_SPEED
   else -(coefficient (getBearing pose c)) * GOTOPOINT_ANG_SPEED,
   GOTOPOINT_LIN_SPEED)

/-- Source function quaternion: a pure vector as a quaternion with W = 0. -/
def quaternion (v : Vec3) : Quat := ⟨0, v.x, v.y, v.z⟩

/-- Source function vector: the vector part of a quaternion. -/
def vector (q : Quat) : Vec3 := ⟨q.x, q.y, q.z⟩

/-- Source function conjugate. -/
def conjugate (q : Quat) : Quat := ⟨q.w, -q.x, -q.y, -q.z⟩

/-- Source function qmult: Hamilton quaternion product, componentwise as
written in the source. -/
def qmult (q1 q2 : Quat) : Quat :=
  ⟨q1.w * q2.w - q1.x * q2.x - q1.y * q2.y - q1.z * q2.z,
   q1.w * q2.x + q1.x * q2.w + q1.y * q2.z - q1.z * q2.y,
   q1.w * q2.y - q1.x * q2.z + q1.y * q2.w + q1.z * q2.x,
   q1.w * q2.z + q1.x * q2.y - q1.y * q2.x + q1.z * q2.w⟩

/-- Source function rotate: the quaternion sandwich product. -/
def rotate (q : Quat) (v : Vec3) : Vec3 :=
  vector (qmult (qmult q (quaternion v)) (conjugate q))

/-- Source function heading: rotate the reference forward vector. -/
def heading (q : Quat) : Vec3 := rotate q ⟨1, 0, 0⟩

/-- Source function toHeading: extract the planar angle and wrap a
non-positive result by adding two pi. -/
def toHeading (q : Quat) : ℝ :=
  let v := heading q
  let angle := atan2 v.y v.x
  if angle > 0 then angle else 2 * π + angle

/-- The pure-yaw unit quaternion for the angle theta. -/
def yawQuat (θ : ℝ) : Quat := ⟨Real.cos (θ / 2), 0, 0, Real.sin (θ / 2)⟩

end

end PathBot

namespace PathBot

noncomputable section

/-- The last scan bound computed by the main loop: N - 1 when the path is
shorter than cursor + window, else cursor + window. The scan loop below
iterates indices from the cursor up to but excluding this bound, exactly
as the range call of the source does. -/
def lastIndex (N cursor W : ℕ) : ℕ :=
  if N < cursor + W then N - 1 else cursor + W

/-- Distance of the waypoint at an index to the look-ahead point, the
quantity compared in the scan loop. Out-of-range indices read the default
origin point; the loop never produces them on a nonempty path. -/
def scanDist (path : List Point) (la : Point) (i : ℕ) : ℝ :=
  distanceBetween (path.getD i ⟨0, 0⟩) la

/-- The scan loop of the source in fold form: the running pair is the
carrot index and its distance, seeded with the cursor and the distance of
the waypoint at the cursor, updated on strictly smaller distance. -/
def scanLoop (d : ℕ → ℝ) (l : List ℕ) (b : ℕ) : ℕ × ℝ :=
  l.foldl (fun acc i => if d i < acc.2 then (i, d i) else acc) (b, d b)

/-- The carrot selection of the main loop: scan indices from the cursor
up to but excluding the last scan bound. -/
def carrotScan (path : List Point) (la : Point) (cursor W : ℕ) : ℕ × ℝ :=
  scanLoop (scanDist path la)
    (List.range' cursor (lastIndex path.length cursor W - cursor)) cursor

/-- The new cursor and carrot index selected on a tick. -/
def carrotIndex (path : List Point) (la : Point) (cursor W : ℕ) : ℕ :=
  (carrotScan path la cursor W).1

/-- Modelled from the words of the specification, for comparison only
(claim C1): a scan over the inclusive index range from the cursor to
min (cursor + window) (N - 1), with the same seed and tie rule as the
code. This is not the code; the code scan excludes its last bound. -/
def specCarrotIndex (path : List Point) (la : Point) (cursor W : ℕ) : ℕ :=
  (scanLoop (scanDist path la)
    (List.range' cursor (min (cursor + W) (path.length - 1) + 1 - cursor)) cursor).1

/-- The goal test of the main loop: only when the path length is below
cursor + window does the loop compare the robot distance to the final
waypoint against the threshold; otherwise the flag is left unchanged. -/
def goalCheck (path : List Point) (W : ℕ) (θ : ℝ) (pose : Pose) (cursor : ℕ)
    (atDest : Bool) : Bool :=
  if path.length < cursor + W then
    (if distanceTo pose (path.getD (path.length - 1) ⟨0, 0⟩) < θ then true else atDest)
  else atDest

/-- Modelled from the words of the specification, for comparison only
(claim C2): the goal check is performed whenever cursor + window reaches
N - 1, and then signals the goal exactly when the robot distance to the
final waypoint is strictly below the threshold. -/
def specAtGoal (path : List Point) (W : ℕ) (θ : ℝ) (pose : Pose) (cursor : ℕ) : Bool :=
  if path.length - 1 ≤ cursor + W then
    (if distanceTo pose (path.getD (path.length - 1) ⟨0, 0⟩) < θ then true else false)
  else false

/-- The loop state across ticks: the search cursor and the destination
flag. -/
structure LoopState where
  cursor : ℕ
  atDest : Bool

/-- One iteration of the main while loop: compute the look-ahead point,
run the goal check, scan for the carrot, and issue the goToPoint command
toward the selected waypoint. The command is issued in the same tick even
when the goal check has just signalled the destination, exactly as in the
source, where goToPoint is called unconditionally at the end of the loop
body. -/
def tick (path : List Point) (W : ℕ) (laD θ : ℝ) (pose : Pose) (s : LoopState) :
    LoopState × (ℝ × ℝ) :=
  let la := lookAhead pose laD
  let atDest := goalCheck path W θ pose s.cursor s.atDest
  let idx := carrotIndex path la s.cursor W
  let carrot := path.getD idx ⟨0, 0⟩
  (⟨idx, atDest⟩, goToPointCmd pose carrot)

/-- The while loop driven by one externally supplied pose per tick: while
the flag is down, run a tick and record its command; when the flag is up
the loop exits and the final stop command (0, 0) is issued once. An empty
pose list models an observation window that ends while the loop still
runs. -/
def run (path : List Point) (W : ℕ) (laD θ : ℝ) :
    List Pose → LoopState → List (ℝ × ℝ)
  | [], s => if s.atDest = true then [(0, 0)] else []
  | p :: ps, s =>
    if s.atDest = true then [(0, 0)]
    else
      let r := tick path W laD θ p s
      r.2 :: run path W laD θ ps r.1

/-- The cursor evolution alone across a sequence of ticks. -/
def cursorRun (path : List Point) (W : ℕ) (laD : ℝ) : List Pose → ℕ → ℕ
  | [], c => c
  | p :: ps, c => cursorRun path W laD ps (carrotIndex path (lookAhead p laD) c W)

/-- A pose sample as delivered by the server: an orientation quaternion
and planar coordinates. -/
structure RawPose where
  orientation : Quat
  px : ℝ
  py : ℝ

/-- The transport outcome of one pose request: a parsed pose on HTTP 200,
or the non-success status code. -/
inductive PoseResponse where
  | ok : RawPose → PoseResponse
  | err : ℕ → PoseResponse

/-- Method Robot.getPose of the final variant. On a non-200 response the
source executes a return of UnexpectedResponse applied to the response,
but the final variant never defines UnexpectedResponse, so that very line
raises a NameError; and even under a definition, the caller would index
into the returned object and fail. Either way the non-200 branch is an
error that propagates, modelled as the error case here. -/
def getPoseM : PoseResponse → Except ℕ RawPose
  | .ok p => .ok p
  | .err status => .error status

/-- Method Robot.updateAttributes of the final variant: no handler around
getPose, so a failed request propagates; on success the pose attributes
are derived from the sample. -/
def updateAttributesM (r : PoseResponse) : Except ℕ Pose := do
  let raw ← getPoseM r
  pure ⟨raw.px, raw.py, toHeading raw.orientation⟩

/-- One loop iteration together with the pose refresh that feeds it: the
tick runs only if the pose attributes were updated successfully. -/
def tickM (path : List Point) (W : ℕ) (laD θ : ℝ) (r : PoseResponse)
    (s : LoopState) : Except ℕ (LoopState × (ℝ × ℝ)) := do
  let pose ← updateAttributesM r
  pure (tick path W laD θ pose s)

end

end PathBot

namespace PathBot

open Real

/-- C8: the look-ahead projection with the source axis convention equals
the point at distance d along the heading direction, and for nonnegative
d that point lies at Euclidean distance exactly d from the robot
position. -/
theorem lookAhead_along_heading (pose : Pose) (d : ℝ) (hd : 0 ≤ d) :
    lookAhead pose d =
      ⟨pose.x + d * Real.cos pose.heading, pose.y + d * Real.sin pose.heading⟩ ∧
    distanceBetween (lookAhead pose d) ⟨pose.x, pose.y⟩ = d := by
  have hx : lookAhead pose d =
      ⟨pose.x + d * Real.cos pose.heading, pose.y + d * Real.sin pose.heading⟩ := by
    unfold lookAhead
    have h1 : Real.sin (pose.heading - π / 2) = -Real.cos pose.heading :=
      Real.sin_sub_pi_div_two _
    have h2 : Real.cos (pose.heading - π / 2) = Real.sin pose.heading :=
      Real.cos_sub_pi_div_two _
    rw [h1, h2]
    simp only [Point.mk.injEq]
    constructor <;> ring_nf
  refine ⟨hx, ?_⟩
  rw [hx]
  show Real.sqrt ((pose.y + d * Real.sin pose.heading - pose.y) ^ 2 +
      (pose.x + d * Real.cos pose.heading - pose.x) ^ 2) = d
  have hpc := Real.sin_sq_add_cos_sq pose.heading
  have key : (pose.y + d * Real.sin pose.heading - pose.y) ^ 2 +
      (pose.x + d * Real.cos pose.heading - pose.x) ^ 2 = d ^ 2 := by
    linear_combination d ^ 2 * hpc
  rw [key]
  exact Real.sqrt_sq hd

/-- C8 witness: the concrete pose at the origin facing the positive y
axis, with unit look-ahead distance. -/
theorem lookAhead_along_heading_w :
    (0 : ℝ) ≤ 1 ∧
    (lookAhead ⟨0, 0, π / 2⟩ 1 =
        ⟨0 + 1 * Real.cos (π / 2), 0 + 1 * Real.sin (π / 2)⟩ ∧
      distanceBetween (lookAhead ⟨0, 0, π / 2⟩ 1) ⟨0, 0⟩ = 1) :=
  ⟨by norm_num, lookAhead_along_heading ⟨0, 0, π / 2⟩ 1 (by norm_num)⟩

/-- C6: the issued command is the signed smooth scaling law for the
angular speed, together with the constant maximal linear speed; at zero
bearing the angular speed is zero because the coefficient vanishes. -/
theorem goToPoint_speed_law (pose : Pose) (c : Point) :
    goToPointCmd pose c =
      (Real.sign (getBearing pose c) *
        (1 - Real.exp (-2 * getBearing pose c ^ 2)) * GOTOPOINT_ANG_SPEED,
       GOTOPOINT_LIN_SPEED) := by
  unfold goToPointCmd coefficient
  simp only [Prod.mk.injEq]
  refine ⟨?_, trivial⟩
  rcases lt_trichotomy (getBearing pose c) 0 with hb | hb | hb
  · rw [if_neg (by linarith : ¬ getBearing pose c > 0), Real.sign_of_neg hb]
    ring
  · rw [hb]
    rw [if_neg (lt_irrefl 0), Real.sign_zero]
    norm_num
  · rw [if_pos hb, Real.sign_of_pos hb]
    ring

/-- C3 (amended): with the heading in the range produced by toHeading,
the wrapped bearing always lies in the interval from -pi inclusive to pi
exclusive; the claimed interval excludes -pi, which is attained. -/
theorem bearing_mem_Ico (pose : Pose) (c : Point)
    (h : pose.heading ∈ Set.Ioc 0 (2 * π)) :
    getBearing pose c ∈ Set.Ico (-π) π := by
  obtain ⟨h1, h2⟩ := h
  have ha := Complex.arg_mem_Ioc ⟨c.x - pose.x, c.y - pose.y⟩
  rw [Set.mem_Ioc] at ha
  obtain ⟨ha1, ha2⟩ := ha
  simp only [getBearing, atan2]
  rw [Set.mem_Ico]
  split_ifs with hb1 hb2
  · constructor <;> linarith
  · constructor <;> linarith
  · constructor <;> linarith

/-- C3 witness: heading pi, target on the positive x axis. -/
theorem bearing_mem_Ico_w :
    π ∈ Set.Ioc 0 (2 * π) ∧ getBearing ⟨0, 0, π⟩ ⟨1, 0⟩ ∈ Set.Ico (-π) π :=
  ⟨⟨Real.pi_pos, by linarith [Real.pi_pos]⟩,
   bearing_mem_Ico ⟨0, 0, π⟩ ⟨1, 0⟩ ⟨Real.pi_pos, by linarith [Real.pi_pos]⟩⟩

/-- C3 counterexample: the heading two pi is produced by toHeading (for
example for the identity orientation), and with the target directly
behind the robot the wrap steps do not fire, so getBearing returns
exactly -pi, which is outside the claimed half-open interval. -/
theorem bearing_neg_pi_attained :
    2 * π ∈ Set.Ioc 0 (2 * π) ∧
    getBearing ⟨0, 0, 2 * π⟩ ⟨-1, 0⟩ ∉ Set.Ioc (-π) π := by
  constructor
  · exact ⟨Real.two_pi_pos, le_refl _⟩
  · have harg : atan2 ((0 : ℝ) - 0) ((-1 : ℝ) - 0) = π := by
      unfold atan2
      have hc : (⟨(-1 : ℝ) - 0, (0 : ℝ) - 0⟩ : ℂ) = -1 := by
        apply Complex.ext <;> norm_num
      rw [hc]
      exact Complex.arg_neg_one
    have key : getBearing ⟨0, 0, 2 * π⟩ ⟨-1, 0⟩ = -π := by
      simp only [getBearing]
      rw [harg]
      rw [if_neg (by linarith [Real.pi_pos] : ¬ π - 2 * π > π)]
      rw [if_neg (by linarith [Real.pi_pos] : ¬ π - 2 * π < -π)]
      ring
    rw [key, Set.mem_Ioc]
    intro hmem
    exact lt_irrefl _ hmem.1

/-- The sandwich rotation of the forward vector by a pure yaw quaternion
is the unit vector of the yaw angle. -/
lemma heading_yawQuat (θ : ℝ) :
    heading (yawQuat θ) = ⟨Real.cos θ, Real.sin θ, 0⟩ := by
  have hpy := Real.sin_sq_add_cos_sq (θ / 2)
  have hcos : Real.cos θ = 2 * Real.cos (θ / 2) ^ 2 - 1 := by
    have h := Real.cos_two_mul (θ / 2)
    rw [show 2 * (θ / 2) = θ by ring] at h
    exact h
  have hsin : Real.sin θ = 2 * Real.sin (θ / 2) * Real.cos (θ / 2) := by
    have h := Real.sin_two_mul (θ / 2)
    rw [show 2 * (θ / 2) = θ by ring] at h
    exact h
  simp only [heading, rotate, qmult, quaternion, conjugate, vector, yawQuat,
    Vec3.mk.injEq]
  refine ⟨?_, ?_, ?_⟩
  · linear_combination -hcos - hpy
  · linear_combination -hsin
  · ring

/-- C7: for the pure yaw quaternion of any angle theta, the extracted
heading equals theta up to an integer multiple of two pi and lies in the
half-open interval from 0 exclusive to two pi inclusive. -/
theorem toHeading_yaw (θ : ℝ) :
    ∃ k : ℤ, toHeading (yawQuat θ) = θ + 2 * π * k ∧
      toHeading (yawQuat θ) ∈ Set.Ioc 0 (2 * π) := by
  have hv := heading_yawQuat θ
  have hmk : (⟨Real.cos θ, Real.sin θ⟩ : ℂ) =
      ↑(Real.cos θ) + ↑(Real.sin θ) * Complex.I := Complex.mk_eq_add_mul_I _ _
  have hth : toHeading (yawQuat θ) =
      (if Complex.arg (↑(Real.cos θ) + ↑(Real.sin θ) * Complex.I) > 0
       then Complex.arg (↑(Real.cos θ) + ↑(Real.sin θ) * Complex.I)
       else 2 * π + Complex.arg (↑(Real.cos θ) + ↑(Real.sin θ) * Complex.I)) := by
    simp only [toHeading, atan2, hv]
    rw [hmk]
  have hsub := Complex.arg_cos_add_sin_mul_I_sub θ
  rw [← Complex.ofReal_cos, ← Complex.ofReal_sin] at hsub
  have hrange := Complex.arg_mem_Ioc (↑(Real.cos θ) + ↑(Real.sin θ) * Complex.I)
  rw [Set.mem_Ioc] at hrange
  set a := Complex.arg (↑(Real.cos θ) + ↑(Real.sin θ) * Complex.I) with hadef
  by_cases hpos : a > 0
  · refine ⟨⌊(π - θ) / (2 * π)⌋, ?_, ?_⟩
    · rw [hth, if_pos hpos]
      linarith [hsub]
    · rw [hth, if_pos hpos, Set.mem_Ioc]
      exact ⟨hpos, by linarith [hrange.2, Real.pi_pos]⟩
  · push_neg at hpos
    refine ⟨⌊(π - θ) / (2 * π)⌋ + 1, ?_, ?_⟩
    · rw [hth, if_neg (not_lt.mpr hpos)]
      push_cast
      linarith [hsub]
    · rw [hth, if_neg (not_lt.mpr hpos), Set.mem_Ioc]
      exact ⟨by linarith [hrange.1, Real.pi_pos], by linarith⟩

end PathBot

namespace PathBot

open Real

/-- The scan fold on the empty index list returns the seed pair. -/
lemma scanLoop_nil (d : ℕ → ℝ) (b : ℕ) : scanLoop d [] b = (b, d b) := rfl

/-- One step of the scan fold: the running pair is replaced exactly when
the next index is strictly closer, so the fold reseeds with the winner. -/
lemma scanLoop_cons (d : ℕ → ℝ) (i : ℕ) (l : List ℕ) (b : ℕ) :
    scanLoop d (i :: l) b = scanLoop d l (if d i < d b then i else b) := by
  simp only [scanLoop, List.foldl_cons]
  split_ifs with h
  · rfl
  · rfl

/-- Full characterisation of the scan fold over a contiguous index range
starting at s with a seed b at most s: the result is the seed or lies in
the range, it minimises d over the seed and the range, and on ties the
lowest index wins. -/
lemma scanLoop_range'_spec (d : ℕ → ℝ) :
    ∀ (k s b : ℕ), b ≤ s →
      ((scanLoop d (List.range' s k) b).1 = b ∨
        (s ≤ (scanLoop d (List.range' s k) b).1 ∧
          (scanLoop d (List.range' s k) b).1 < s + k)) ∧
      d (scanLoop d (List.range' s k) b).1 ≤ d b ∧
      (∀ i, s ≤ i → i < s + k → d (scanLoop d (List.range' s k) b).1 ≤ d i) ∧
      (d b = d (scanLoop d (List.range' s k) b).1 →
        (scanLoop d (List.range' s k) b).1 ≤ b) ∧
      (∀ i, s ≤ i → i < s + k → d i = d (scanLoop d (List.range' s k) b).1 →
        (scanLoop d (List.range' s k) b).1 ≤ i) := by
  intro k
  induction k with
  | zero =>
    intro s b hb
    rw [List.range'_zero, scanLoop_nil]
    refine ⟨Or.inl rfl, le_refl _, ?_, fun _ => le_refl _, ?_⟩
    · intro i h1 h2
      exact absurd h2 (by omega)
    · intro i h1 h2
      exact absurd h2 (by omega)
  | succ n ih =>
    intro s b hb
    rw [List.range'_succ, scanLoop_cons]
    by_cases h : d s < d b
    · rw [if_pos h]
      obtain ⟨Hmem, Hseed, Hall, Htie0, Htie⟩ := ih (s + 1) s (Nat.le_succ s)
      refine ⟨?_, ?_, ?_, ?_, ?_⟩
      · rcases Hmem with h1 | ⟨h1, h2⟩
        · right
          omega
        · right
          omega
      · exact le_of_lt (lt_of_le_of_lt Hseed h)
      · intro i h1 h2
        rcases eq_or_lt_of_le h1 with rfl | h1'
        · exact Hseed
        · exact Hall i h1' (by omega)
      · intro he
        exfalso
        have := lt_of_le_of_lt Hseed h
        linarith
      · intro i h1 h2 htie
        rcases eq_or_lt_of_le h1 with rfl | h1'
        · exact Htie0 htie
        · exact Htie i h1' (by omega) htie
    · rw [if_neg h]
      push_neg at h
      obtain ⟨Hmem, Hseed, Hall, Htie0, Htie⟩ := ih (s + 1) b (by omega)
      refine ⟨?_, Hseed, ?_, Htie0, ?_⟩
      · rcases Hmem with h1 | ⟨h1, h2⟩
        · exact Or.inl h1
        · right
          omega
      · intro i h1 h2
        rcases eq_or_lt_of_le h1 with rfl | h1'
        · linarith
        · exact Hall i h1' (by omega)
      · intro i h1 h2 htie
        rcases eq_or_lt_of_le h1 with rfl | h1'
        · have hbj : d b = d (scanLoop d (List.range' (s + 1) n) b).1 := by
            linarith
          have := Htie0 hbj
          omega
        · exact Htie i h1' (by omega) htie

/-- The selected carrot index is the seed cursor or lies in the half-open
scanned range, it minimises the distance to the look-ahead point over the
seed and that range, and ties go to the lowest index. -/
lemma carrotIndex_spec (path : List Point) (la : Point) (cursor W : ℕ) :
    (carrotIndex path la cursor W = cursor ∨
      (cursor ≤ carrotIndex path la cursor W ∧
        carrotIndex path la cursor W < lastIndex path.length cursor W)) ∧
    scanDist path la (carrotIndex path la cursor W) ≤ scanDist path la cursor ∧
    (∀ i, cursor ≤ i → i < lastIndex path.length cursor W →
      scanDist path la (carrotIndex path la cursor W) ≤ scanDist path la i) ∧
    (scanDist path la cursor = scanDist path la (carrotIndex path la cursor W) →
      carrotIndex path la cursor W ≤ cursor) ∧
    (∀ i, cursor ≤ i → i < lastIndex path.length cursor W →
      scanDist path la i = scanDist path la (carrotIndex path la cursor W) →
      carrotIndex path la cursor W ≤ i) := by
  have e : carrotIndex path la cursor W =
      (scanLoop (scanDist path la)
        (List.range' cursor (lastIndex path.length cursor W - cursor)) cursor).1 := rfl
  obtain ⟨Hmem, Hseed, Hall, Htie0, Htie⟩ :=
    scanLoop_range'_spec (scanDist path la)
      (lastIndex path.length cursor W - cursor) cursor cursor (le_refl _)
  rw [e]
  refine ⟨?_, Hseed, ?_, Htie0, ?_⟩
  · rcases Hmem with h1 | ⟨h1, h2⟩
    · exact Or.inl h1
    · omega
  · intro i h1 h2
    exact Hall i h1 (by omega)
  · intro i h1 h2 htie
    exact Htie i h1 (by omega) htie

/-- The selected carrot index never falls behind the cursor. -/
lemma carrotIndex_mono (path : List Point) (la : Point) (cursor W : ℕ) :
    cursor ≤ carrotIndex path la cursor W := by
  rcases (carrotIndex_spec path la cursor W).1 with h | ⟨h1, h2⟩
  · omega
  · exact h1

/-- The selected carrot index stays within the path bounds. -/
lemma carrotIndex_le (path : List Point) (la : Point) (cursor W : ℕ)
    (hc : cursor ≤ path.length - 1) :
    carrotIndex path la cursor W ≤ path.length - 1 := by
  rcases (carrotIndex_spec path la cursor W).1 with h | ⟨h1, h2⟩
  · omega
  · unfold lastIndex at h2
    by_cases hlt : path.length < cursor + W
    · rw [if_pos hlt] at h2
      omega
    · rw [if_neg hlt] at h2
      omega

/-- C1 (amended): the scan inspects the half-open index range from the
cursor up to but excluding the last scan bound (the bound is N - 1 when
N is less than cursor plus window, else cursor plus window); over the
seed and that range the returned index minimises the Euclidean distance
to the look-ahead point, with ties broken by the lowest index and the
running minimum seeded with the distance of the waypoint at the cursor. -/
theorem carrot_argmin_halfopen (path : List Point) (la : Point) (cursor W : ℕ) :
    (carrotIndex path la cursor W = cursor ∨
      (cursor ≤ carrotIndex path la cursor W ∧
        carrotIndex path la cursor W < lastIndex path.length cursor W)) ∧
    scanDist path la (carrotIndex path la cursor W) ≤ scanDist path la cursor ∧
    (∀ i, cursor ≤ i → i < lastIndex path.length cursor W →
      scanDist path la (carrotIndex path la cursor W) ≤ scanDist path la i) ∧
    (scanDist path la cursor = scanDist path la (carrotIndex path la cursor W) →
      carrotIndex path la cursor W ≤ cursor) ∧
    (∀ i, cursor ≤ i → i < lastIndex path.length cursor W →
      scanDist path la i = scanDist path la (carrotIndex path la cursor W) →
      carrotIndex path la cursor W ≤ i) :=
  carrotIndex_spec path la cursor W

/-- C1 counterexample: on a three waypoint path with the source window
constant, the code scan stops before index 2 and keeps the seed index 0,
while the scan described by the specification inspects the inclusive
range up to min (cursor + window) (N - 1) = 2 and returns index 2, whose
waypoint coincides with the look-ahead point. -/
theorem carrot_scan_range_mismatch :
    carrotIndex [⟨5, 5⟩, ⟨5, 5⟩, ⟨1, 0⟩] ⟨1, 0⟩ 0 LA_THRESHOLD = 0 ∧
    specCarrotIndex [⟨5, 5⟩, ⟨5, 5⟩, ⟨1, 0⟩] ⟨1, 0⟩ 0 LA_THRESHOLD = 2 ∧
    carrotIndex [⟨5, 5⟩, ⟨5, 5⟩, ⟨1, 0⟩] ⟨1, 0⟩ 0 LA_THRESHOLD ≠
      specCarrotIndex [⟨5, 5⟩, ⟨5, 5⟩, ⟨1, 0⟩] ⟨1, 0⟩ 0 LA_THRESHOLD := by
  have hd0 : scanDist [⟨5, 5⟩, ⟨5, 5⟩, ⟨1, 0⟩] ⟨1, 0⟩ 0 = Real.sqrt 41 := by
    simp only [scanDist, distanceBetween, List.getD_cons_zero]
    norm_num
  have hd1 : scanDist [⟨5, 5⟩, ⟨5, 5⟩, ⟨1, 0⟩] ⟨1, 0⟩ 1 = Real.sqrt 41 := by
    simp only [scanDist, distanceBetween, List.getD_cons_succ, List.getD_cons_zero]
    norm_num
  have hd2 : scanDist [⟨5, 5⟩, ⟨5, 5⟩, ⟨1, 0⟩] ⟨1, 0⟩ 2 = 0 := by
    simp only [scanDist, distanceBetween, List.getD_cons_succ, List.getD_cons_zero]
    norm_num [Real.sqrt_zero]
  have h41 : (0 : ℝ) < Real.sqrt 41 := Real.sqrt_pos.mpr (by norm_num)
  have hcode : carrotIndex [⟨5, 5⟩, ⟨5, 5⟩, ⟨1, 0⟩] ⟨1, 0⟩ 0 LA_THRESHOLD = 0 := by
    unfold carrotIndex carrotScan
    rw [show lastIndex (List.length [(⟨5, 5⟩ : Point), ⟨5, 5⟩, ⟨1, 0⟩]) 0 LA_THRESHOLD = 2
      from rfl]
    rw [show List.range' 0 (2 - 0) = [0, 1] from rfl]
    rw [scanLoop_cons, if_neg (lt_irrefl _), scanLoop_cons, hd1, hd0,
      if_neg (lt_irrefl _), scanLoop_nil]
  have hspec : specCarrotIndex [⟨5, 5⟩, ⟨5, 5⟩, ⟨1, 0⟩] ⟨1, 0⟩ 0 LA_THRESHOLD = 2 := by
    unfold specCarrotIndex
    rw [show min (0 + LA_THRESHOLD) (List.length [(⟨5, 5⟩ : Point), ⟨5, 5⟩, ⟨1, 0⟩] - 1)
        + 1 - 0 = 3 from rfl]
    rw [show List.range' 0 3 = [0, 1, 2] from rfl]
    rw [scanLoop_cons, if_neg (lt_irrefl _), scanLoop_cons, hd1, hd0,
      if_neg (lt_irrefl _), scanLoop_cons, hd2, hd0, if_pos h41, scanLoop_nil]
  exact ⟨hcode, hspec, by rw [hcode, hspec]; omega⟩

/-- C5: across one tick and across any sequence of ticks, the cursor is
monotonically non-decreasing and never exceeds N - 1 on a nonempty path. -/
theorem cursor_monotone_bounded (path : List Point) (W : ℕ) (laD : ℝ) (pose : Pose)
    (poses : List Pose) (c : ℕ) (_hN : 0 < path.length) (hc : c ≤ path.length - 1) :
    (c ≤ carrotIndex path (lookAhead pose laD) c W ∧
      carrotIndex path (lookAhead pose laD) c W ≤ path.length - 1) ∧
    (c ≤ cursorRun path W laD poses c ∧
      cursorRun path W laD poses c ≤ path.length - 1) := by
  have hrun : ∀ (ps : List Pose) (c0 : ℕ), c0 ≤ path.length - 1 →
      c0 ≤ cursorRun path W laD ps c0 ∧ cursorRun path W laD ps c0 ≤ path.length - 1 := by
    intro ps
    induction ps with
    | nil =>
      intro c0 hc0
      exact ⟨le_refl _, hc0⟩
    | cons p ps ih =>
      intro c0 hc0
      have h1 := carrotIndex_mono path (lookAhead p laD) c0 W
      have h2 := carrotIndex_le path (lookAhead p laD) c0 W hc0
      have H := ih _ h2
      simp only [cursorRun]
      exact ⟨le_trans h1 H.1, H.2⟩
  exact ⟨⟨carrotIndex_mono path (lookAhead pose laD) c W,
    carrotIndex_le path (lookAhead pose laD) c W hc⟩, hrun poses c hc⟩

/-- C5 witness: a single waypoint path, one tick, window from the source. -/
theorem cursor_monotone_bounded_w :
    0 < List.length [(⟨0, 0⟩ : Point)] ∧
    ((0 ≤ carrotIndex [(⟨0, 0⟩ : Point)] (lookAhead ⟨0, 0, 1⟩ LOOK_AHEAD_DISTANCE) 0
        LA_THRESHOLD ∧
      carrotIndex [(⟨0, 0⟩ : Point)] (lookAhead ⟨0, 0, 1⟩ LOOK_AHEAD_DISTANCE) 0
        LA_THRESHOLD ≤ List.length [(⟨0, 0⟩ : Point)] - 1) ∧
    (0 ≤ cursorRun [(⟨0, 0⟩ : Point)] LA_THRESHOLD LOOK_AHEAD_DISTANCE [⟨0, 0, 1⟩] 0 ∧
      cursorRun [(⟨0, 0⟩ : Point)] LA_THRESHOLD LOOK_AHEAD_DISTANCE [⟨0, 0, 1⟩] 0 ≤
        List.length [(⟨0, 0⟩ : Point)] - 1)) :=
  ⟨by simp,
   cursor_monotone_bounded [(⟨0, 0⟩ : Point)] LA_THRESHOLD LOOK_AHEAD_DISTANCE
     ⟨0, 0, 1⟩ [⟨0, 0, 1⟩] 0 (by simp) (by simp)⟩

/-- C10 (amended): from any state with cursor at most N - 2, the scan
cannot select the final waypoint, except exactly when cursor plus window
equals N, in which case the final index enters the scanned range. -/
theorem scan_avoids_last_waypoint (path : List Point) (la : Point) (c W : ℕ)
    (_hN : 2 ≤ path.length) (hc : c ≤ path.length - 2)
    (hne : c + W ≠ path.length) :
    carrotIndex path la c W ≤ path.length - 2 := by
  rcases (carrotIndex_spec path la c W).1 with h | ⟨h1, h2⟩
  · omega
  · unfold lastIndex at h2
    by_cases hlt : path.length < c + W
    · rw [if_pos hlt] at h2
      omega
    · rw [if_neg hlt] at h2
      omega

/-- C10 witness: a two waypoint path with a window that does not make
cursor plus window hit the path length. -/
theorem scan_avoids_last_waypoint_w :
    (0 + 3 ≠ List.length [(⟨0, 0⟩ : Point), ⟨1, 1⟩]) ∧
    carrotIndex [(⟨0, 0⟩ : Point), ⟨1, 1⟩] ⟨0, 0⟩ 0 3 ≤
      List.length [(⟨0, 0⟩ : Point), ⟨1, 1⟩] - 2 :=
  ⟨by simp,
   scan_avoids_last_waypoint [(⟨0, 0⟩ : Point), ⟨1, 1⟩] ⟨0, 0⟩ 0 3
     (by simp) (by simp) (by simp)⟩

end PathBot

namespace PathBot

open Real

/-- The robot sitting exactly on a waypoint is at distance zero from it. -/
lemma distanceTo_same : distanceTo ⟨0, 0, π / 2⟩ (⟨0, 0⟩ : Point) = 0 := by
  unfold distanceTo
  norm_num [Real.sqrt_zero]

/-- C2 (amended): the tick signals the destination exactly when the path
length is strictly below cursor plus window and the robot distance to the
final waypoint is strictly below the threshold; in particular no goal
check is performed when cursor plus window only reaches N - 1 or N. -/
theorem goal_check_iff (path : List Point) (W : ℕ) (laD θ : ℝ) (pose : Pose) (c : ℕ) :
    (tick path W laD θ pose ⟨c, false⟩).1.atDest = true ↔
      (path.length < c + W ∧
        distanceTo pose (path.getD (path.length - 1) ⟨0, 0⟩) < θ) := by
  have e : (tick path W laD θ pose ⟨c, false⟩).1.atDest =
      goalCheck path W θ pose c false := rfl
  rw [e]
  unfold goalCheck
  split_ifs with h1 h2
  · exact iff_of_true rfl ⟨h1, h2⟩
  · exact iff_of_false (by simp) fun hcon => h2 hcon.2
  · exact iff_of_false (by simp) fun hcon => h1 hcon.1

set_option maxRecDepth 4000 in
/-- C2 counterexample: on a path of length 400 with the source window
constant 400 and the robot sitting on the final waypoint, the scan range
reaches the final waypoint in the sense of the specification (cursor plus
window is at least N - 1), so the specified goal check fires, but the
code performs no goal check because the length is not strictly below
cursor plus window, and the tick does not signal the destination. -/
theorem goal_check_mismatch :
    (tick (List.replicate 400 (⟨0, 0⟩ : Point)) LA_THRESHOLD LOOK_AHEAD_DISTANCE
        DISTANCE_THRESHOLD ⟨0, 0, π / 2⟩ ⟨0, false⟩).1.atDest = false ∧
    specAtGoal (List.replicate 400 (⟨0, 0⟩ : Point)) LA_THRESHOLD DISTANCE_THRESHOLD
        ⟨0, 0, π / 2⟩ 0 = true := by
  constructor
  · have e : (tick (List.replicate 400 (⟨0, 0⟩ : Point)) LA_THRESHOLD LOOK_AHEAD_DISTANCE
        DISTANCE_THRESHOLD ⟨0, 0, π / 2⟩ ⟨0, false⟩).1.atDest =
        goalCheck (List.replicate 400 (⟨0, 0⟩ : Point)) LA_THRESHOLD DISTANCE_THRESHOLD
          ⟨0, 0, π / 2⟩ 0 false := rfl
    rw [e]
    unfold goalCheck
    rw [if_neg (by rw [List.length_replicate]; norm_num [LA_THRESHOLD] :
      ¬ List.length (List.replicate 400 (⟨0, 0⟩ : Point)) < 0 + LA_THRESHOLD)]
  · unfold specAtGoal
    have hg : (List.replicate 400 (⟨0, 0⟩ : Point)).getD
        (List.length (List.replicate 400 (⟨0, 0⟩ : Point)) - 1) ⟨0, 0⟩ = ⟨0, 0⟩ := by
      rw [List.getD_eq_getElem?_getD,
        List.getElem?_replicate_of_lt (by rw [List.length_replicate]; omega)]
      rfl
    have hdist : distanceTo ⟨0, 0, π / 2⟩
        ((List.replicate 400 (⟨0, 0⟩ : Point)).getD
          (List.length (List.replicate 400 (⟨0, 0⟩ : Point)) - 1) ⟨0, 0⟩) <
        DISTANCE_THRESHOLD := by
      rw [hg, distanceTo_same]
      norm_num [DISTANCE_THRESHOLD]
    rw [if_pos (by rw [List.length_replicate]; norm_num [LA_THRESHOLD] :
      List.length (List.replicate 400 (⟨0, 0⟩ : Point)) - 1 ≤ 0 + LA_THRESHOLD)]
    rw [if_pos hdist]

/-- On the single waypoint path with the robot on that waypoint, the goal
check of the tick fires. -/
lemma tick_single_goal :
    (tick [(⟨0, 0⟩ : Point)] LA_THRESHOLD LOOK_AHEAD_DISTANCE DISTANCE_THRESHOLD
      ⟨0, 0, π / 2⟩ ⟨0, false⟩).1.atDest = true := by
  have e : (tick [(⟨0, 0⟩ : Point)] LA_THRESHOLD LOOK_AHEAD_DISTANCE DISTANCE_THRESHOLD
      ⟨0, 0, π / 2⟩ ⟨0, false⟩).1.atDest =
      goalCheck [(⟨0, 0⟩ : Point)] LA_THRESHOLD DISTANCE_THRESHOLD ⟨0, 0, π / 2⟩ 0 false :=
    rfl
  rw [e]
  unfold goalCheck
  have h1 : List.length [(⟨0, 0⟩ : Point)] < 0 + LA_THRESHOLD := by
    norm_num [LA_THRESHOLD]
  have h2 : distanceTo ⟨0, 0, π / 2⟩
      (List.getD [(⟨0, 0⟩ : Point)] (List.length [(⟨0, 0⟩ : Point)] - 1) ⟨0, 0⟩) <
      DISTANCE_THRESHOLD := by
    rw [show List.getD [(⟨0, 0⟩ : Point)] (List.length [(⟨0, 0⟩ : Point)] - 1) ⟨0, 0⟩ =
      ⟨0, 0⟩ from rfl]
    rw [distanceTo_same]
    norm_num [DISTANCE_THRESHOLD]
  rw [if_pos h1, if_pos h2]

/-- C4 counterexample: in the very tick in which the destination flag
turns true, the loop body still issues its goToPoint command, whose
linear component is the constant maximal linear speed, so the command of
that tick is not the zero stop command. -/
theorem goal_tick_emits_motion :
    (tick [(⟨0, 0⟩ : Point)] LA_THRESHOLD LOOK_AHEAD_DISTANCE DISTANCE_THRESHOLD
      ⟨0, 0, π / 2⟩ ⟨0, false⟩).1.atDest = true ∧
    (tick [(⟨0, 0⟩ : Point)] LA_THRESHOLD LOOK_AHEAD_DISTANCE DISTANCE_THRESHOLD
      ⟨0, 0, π / 2⟩ ⟨0, false⟩).2 ≠ ((0 : ℝ), (0 : ℝ)) := by
  refine ⟨tick_single_goal, ?_⟩
  intro h
  have h2 := congrArg Prod.snd h
  have e : (tick [(⟨0, 0⟩ : Point)] LA_THRESHOLD LOOK_AHEAD_DISTANCE DISTANCE_THRESHOLD
      ⟨0, 0, π / 2⟩ ⟨0, false⟩).2.2 = GOTOPOINT_LIN_SPEED := rfl
  rw [e] at h2
  norm_num [GOTOPOINT_LIN_SPEED] at h2

/-- A loop whose flag is already up exits at once and issues exactly the
single stop command, whatever poses remain. -/
lemma run_stopped (path : List Point) (W : ℕ) (laD θ : ℝ) (ps : List Pose)
    (s : LoopState) (h : s.atDest = true) :
    run path W laD θ ps s = [(0, 0)] := by
  cases ps with
  | nil => simp [run, h]
  | cons p ps => simp [run, h]

/-- C4 (amended): when the tick turns the destination flag on, the trace
of the loop from that point is exactly the motion command of that tick
followed by the single stop command (0, 0); no further command is ever
issued, whatever poses follow. -/
theorem stop_after_goal_tick (path : List Point) (W : ℕ) (laD θ : ℝ) (p : Pose)
    (ps : List Pose) (c : ℕ)
    (h : (tick path W laD θ p ⟨c, false⟩).1.atDest = true) :
    run path W laD θ (p :: ps) ⟨c, false⟩ =
      [(tick path W laD θ p ⟨c, false⟩).2, (0, 0)] := by
  have e : run path W laD θ (p :: ps) ⟨c, false⟩ =
      (tick path W laD θ p ⟨c, false⟩).2 ::
        run path W laD θ ps (tick path W laD θ p ⟨c, false⟩).1 := by
    simp [run]
  rw [e, run_stopped path W laD θ ps _ h]

/-- C4 witness: the single waypoint path with the robot on the waypoint;
the one modelled tick flips the flag, and the trace is its motion command
followed by the stop command. -/
theorem stop_after_goal_tick_w :
    (tick [(⟨0, 0⟩ : Point)] LA_THRESHOLD LOOK_AHEAD_DISTANCE DISTANCE_THRESHOLD
      ⟨0, 0, π / 2⟩ ⟨0, false⟩).1.atDest = true ∧
    run [(⟨0, 0⟩ : Point)] LA_THRESHOLD LOOK_AHEAD_DISTANCE DISTANCE_THRESHOLD
      [⟨0, 0, π / 2⟩] ⟨0, false⟩ =
      [(tick [(⟨0, 0⟩ : Point)] LA_THRESHOLD LOOK_AHEAD_DISTANCE DISTANCE_THRESHOLD
        ⟨0, 0, π / 2⟩ ⟨0, false⟩).2, (0, 0)] :=
  ⟨tick_single_goal,
   stop_after_goal_tick [(⟨0, 0⟩ : Point)] LA_THRESHOLD LOOK_AHEAD_DISTANCE
     DISTANCE_THRESHOLD ⟨0, 0, π / 2⟩ [] 0 tick_single_goal⟩

/-- C9: when the pose request fails with a non-success status, the tick
does not run and the failure propagates out of the pose refresh, because
the final variant has no handler there; the loop state is not advanced
and no command is produced. This is the behaviour of the code at the
failing input; the claim and the specification require the tick to be
skipped with the loop continuing. -/
theorem pose_failure_propagates (path : List Point) (W : ℕ) (laD θ : ℝ)
    (status : ℕ) (s : LoopState) :
    tickM path W laD θ (.err status) s = .error status := rfl

set_option maxRecDepth 8000 in
set_option maxHeartbeats 2000000 in
/-- C10 counterexample: a path of length 400 with the source window
constant 400, all waypoints away from the look-ahead point except the
final one, which coincides with it. From the initial cursor 0 (which is
at most N - 2) the bound of the scan equals cursor plus window, the range
call therefore reaches the final index 399 = N - 1, and the scan selects
it, so the final waypoint becomes the steering target and the new cursor
exceeds N - 2. -/
theorem scan_selects_last_waypoint :
    List.length (List.replicate 399 (⟨5, 5⟩ : Point) ++ [⟨1, 0⟩]) = 400 ∧
    (tick (List.replicate 399 (⟨5, 5⟩ : Point) ++ [⟨1, 0⟩]) LA_THRESHOLD
        LOOK_AHEAD_DISTANCE DISTANCE_THRESHOLD ⟨1, -(3 / 2), π / 2⟩
        ⟨0, false⟩).1.cursor = 399 ∧
    ¬ ((tick (List.replicate 399 (⟨5, 5⟩ : Point) ++ [⟨1, 0⟩]) LA_THRESHOLD
        LOOK_AHEAD_DISTANCE DISTANCE_THRESHOLD ⟨1, -(3 / 2), π / 2⟩
        ⟨0, false⟩).1.cursor ≤
      List.length (List.replicate 399 (⟨5, 5⟩ : Point) ++ [⟨1, 0⟩]) - 2) := by
  set path := List.replicate 399 (⟨5, 5⟩ : Point) ++ [⟨1, 0⟩] with hpath
  have hlen : path.length = 400 := by
    rw [hpath, List.length_append, List.length_replicate]
    rfl
  have hla : lookAhead ⟨1, -(3 / 2), π / 2⟩ LOOK_AHEAD_DISTANCE = (⟨1, 0⟩ : Point) := by
    simp only [lookAhead, LOOK_AHEAD_DISTANCE, sub_self, Real.sin_zero, Real.cos_zero,
      Point.mk.injEq]
    norm_num
  have hcur : (tick path LA_THRESHOLD LOOK_AHEAD_DISTANCE DISTANCE_THRESHOLD
      ⟨1, -(3 / 2), π / 2⟩ ⟨0, false⟩).1.cursor =
      carrotIndex path (lookAhead ⟨1, -(3 / 2), π / 2⟩ LOOK_AHEAD_DISTANCE) 0
        LA_THRESHOLD := rfl
  obtain ⟨Hmem, Hseed, Hall, Htie0, Htie⟩ := carrotIndex_spec path ⟨1, 0⟩ 0 LA_THRESHOLD
  have hli : lastIndex path.length 0 LA_THRESHOLD = 400 := by
    rw [hlen]
    unfold lastIndex LA_THRESHOLD
    norm_num
  have hd399 : scanDist path ⟨1, 0⟩ 399 = 0 := by
    unfold scanDist
    have hg : path.getD 399 ⟨0, 0⟩ = ⟨1, 0⟩ := by
      rw [hpath, List.getD_eq_getElem?_getD,
        List.getElem?_append_right (by rw [List.length_replicate]),
        List.length_replicate]
      rfl
    rw [hg]
    unfold distanceBetween
    norm_num [Real.sqrt_zero]
  have hdlt : ∀ i, i < 399 → scanDist path ⟨1, 0⟩ i = Real.sqrt 41 := by
    intro i hi
    unfold scanDist
    have hg : path.getD i ⟨0, 0⟩ = ⟨5, 5⟩ := by
      rw [hpath, List.getD_eq_getElem?_getD,
        List.getElem?_append_left (by rw [List.length_replicate]; exact hi),
        List.getElem?_replicate_of_lt hi]
      rfl
    rw [hg]
    unfold distanceBetween
    norm_num
  have hj0 : scanDist path ⟨1, 0⟩ (carrotIndex path ⟨1, 0⟩ 0 LA_THRESHOLD) = 0 := by
    have h1 := Hall 399 (Nat.zero_le _) (by rw [hli]; norm_num)
    rw [hd399] at h1
    have h2 : 0 ≤ scanDist path ⟨1, 0⟩ (carrotIndex path ⟨1, 0⟩ 0 LA_THRESHOLD) := by
      unfold scanDist distanceBetween
      positivity
    linarith
  have hjlt : carrotIndex path ⟨1, 0⟩ 0 LA_THRESHOLD < 400 := by
    rcases Hmem with h | ⟨h1, h2⟩
    · omega
    · rw [hli] at h2
      exact h2
  have hj399 : carrotIndex path ⟨1, 0⟩ 0 LA_THRESHOLD = 399 := by
    by_contra hne
    have hlt : carrotIndex path ⟨1, 0⟩ 0 LA_THRESHOLD < 399 := by omega
    rw [hdlt _ hlt] at hj0
    have hpos : (0 : ℝ) < Real.sqrt 41 := Real.sqrt_pos.mpr (by norm_num)
    linarith
  refine ⟨hlen, ?_, ?_⟩
  · rw [hcur, hla]
    exact hj399
  · rw [hcur, hla, hj399, hlen]
    omega

end PathBot
